import Mathlib

/-!
Verification development for the `crisp-cache` library (four43/node-crisp-cache).

The repository contains several historical snapshots of each module.  The
definitions below are shallow embeddings of those snapshots, translated
line by line from the JavaScript / TypeScript sources:

* `legacyGetState`   — `src/lib/CacheEntry.js`, `CacheEntry.prototype.getState` (lines 8-17)
* `mkCacheEntryJS` / `entryState`
                     — `src/unnamed/part_004` (the `CacheEntry.js` snapshot that stores
                       a `size` and checks expiry before staleness, lines 1-19)
* `tsState` / `tsCtorTtls`
                     — `src/src/lib/CacheEntry.ts` (`state` getter lines 33-44 and the
                       `Object.assign` constructor defaulting, lines 21-31)
* `LruState` and the `lru*` operations — `src/lib/Lru.js`
* `CrispState` and the orchestrator operations (`getOp`, `setOp`, `delOp`,
  `lockOp`, `resolveLocksOp`, `fetchStart`, `fetchSuccessOp`, `fetchErrorV1Op`,
  `fetchErrorV2Op`) — `src/main.js` (first snapshot, lines 1-394; the second
  snapshot lines 394-932 differs only where noted, in the `_fetch` error path).

JavaScript `undefined` is modelled as `Option.none`; JavaScript numbers that
the library manipulates are modelled as `Int` (all TTL and size arithmetic in
the sources is integer arithmetic on millisecond counts and user sizes).
Heap objects of the doubly linked LRU list are modelled by an append-only
store of nodes indexed by `Nat`, so that stale references to removed nodes
behave exactly like the retained JavaScript object references do.
-/

/-- Freshness states of a cache entry (`CacheEntry.STATE_VALID/STALE/EXPIRED`
in the JS sources, `enum STATE` in the TS source). -/
inductive EntryState where
  | VALID
  | STALE
  | EXPIRED
deriving DecidableEq, Repr

/-- Embedding of `CacheEntry.prototype.getState` from `src/lib/CacheEntry.js`
lines 8-17: staleness is checked first and without any guard on the stale
TTL, and expiry requires `expiresTtl > 0`. -/
def legacyGetState (created staleTtl expiresTtl now : Int) : EntryState :=
  if now > created + staleTtl then .STALE
  else if expiresTtl > 0 ∧ now > created + expiresTtl then .EXPIRED
  else .VALID

/-- Embedding of the `state` getter of `src/src/lib/CacheEntry.ts` lines
33-44: expiry is checked first and both checks are guarded by `ttl >= 0`,
so `-1` acts as a "never" sentinel on each axis. -/
def tsState (created staleTtl expiresTtl now : Int) : EntryState :=
  if expiresTtl ≥ 0 ∧ now > created + expiresTtl then .EXPIRED
  else if staleTtl ≥ 0 ∧ now > created + staleTtl then .STALE
  else .VALID

/-- Embedding of the TTL defaulting performed by the `CacheEntry` constructor
of `src/src/lib/CacheEntry.ts` lines 21-31: `Object.assign` is shallow, so an
explicitly supplied `ttls` object (here `some (stale, expires)`) is kept
verbatim, and the defaults `{stale: 300000, expires: -1}` apply only when the
`ttls` option is absent. -/
def tsCtorTtls (ttls : Option (Int × Int)) : Int × Int :=
  match ttls with
  | some t => t
  | none => (300000, -1)

/-- Semantics of the JavaScript expression `x || d` for a numeric `x` that may
be `undefined` (`none`): `0` is falsy, so both `undefined` and `0` yield the
default. -/
def jsOrDefault (x : Option Int) (d : Int) : Int :=
  match x with
  | some v => if v = 0 then d else v
  | none => d

/-- A cache entry as built by the `CacheEntry` constructor of
`src/unnamed/part_004` lines 1-8.  The stored `size` is `options.size || null`
in the source; `null` (and an explicit `0`) behave as `0` in the only place
the field is consumed (`Lru.prototype.put`, where `+= null` coerces to `0`),
so it is modelled as the integer `0` in those cases. -/
structure CacheEntryJS (α : Type) where
  value : Option α
  staleTtl : Int
  expiresTtl : Int
  created : Int
  size : Int
deriving DecidableEq, Repr

/-- Embedding of the `CacheEntry` constructor of `src/unnamed/part_004`
lines 1-8 (identical to `src/lib/CacheEntry.js` lines 1-6 except that this
snapshot also stores the `size`): `this.staleTtl = options.staleTtl || 300000`
and `this.expiresTtl = options.expiresTtl || 0`. -/
def mkCacheEntryJS (value : Option α) (staleTtl expiresTtl size : Option Int)
    (now : Int) : CacheEntryJS α :=
  { value := value
    staleTtl := jsOrDefault staleTtl 300000
    expiresTtl := jsOrDefault expiresTtl 0
    created := now
    size := size.getD 0 }

/-- Embedding of `CacheEntry.prototype.getState` from `src/unnamed/part_004`
lines 10-19 (the snapshot used by the orchestrator model): expiry is checked
first but still guarded by `expiresTtl > 0`. -/
def entryState (e : CacheEntryJS α) (now : Int) : EntryState :=
  if e.expiresTtl > 0 ∧ now > e.created + e.expiresTtl then .EXPIRED
  else if now > e.created + e.staleTtl then .STALE
  else .VALID

/-- A node of the doubly linked LRU list (function `Entry` at the bottom of
`src/lib/Lru.js`): a key, a size and references to the `newer` and `older`
neighbours.  References are indices into the append-only node store of
`LruState`, which mirrors JavaScript object references: a node removed from
the hash is still reachable through any retained reference. -/
structure LruNode where
  key : String
  size : Int
  newer : Option Nat
  older : Option Nat
deriving DecidableEq, Repr

/-- The state of an `Lru` instance (`src/lib/Lru.js` lines 9-25): the node
store, the `head` and `tail` references, the key → node hash, the aggregate
`size`, `maxSize` (`none` models `undefined`, i.e. no bound: every JS `>`
comparison against `undefined` is false) and the log of keys passed to
`delCallback`. -/
structure LruState where
  nodes : List LruNode
  head : Option Nat
  tail : Option Nat
  hash : List (String × Nat)
  size : Int
  maxSize : Option Int
  delLog : List String
deriving DecidableEq, Repr

/-- Association-list lookup, modelling `hash[key]` on a JS object whose live
keys are unique. -/
def lookupA {β : Type} (l : List (String × β)) (k : String) : Option β :=
  match l with
  | [] => none
  | (k2, v) :: rest => if k2 = k then some v else lookupA rest k

/-- Association-list update, modelling `hash[key] = v`. -/
def setA {β : Type} (l : List (String × β)) (k : String) (v : β) :
    List (String × β) :=
  match l with
  | [] => [(k, v)]
  | (k2, w) :: rest => if k2 = k then (k2, v) :: rest else (k2, w) :: setA rest k v

/-- Association-list removal, modelling `delete hash[key]`. -/
def delA {β : Type} (l : List (String × β)) (k : String) : List (String × β) :=
  match l with
  | [] => []
  | (k2, w) :: rest => if k2 = k then rest else (k2, w) :: delA rest k

/-- Dereference a node index in the store (always in range on states built by
the operations below; the default is never read there). -/
def getNode (s : LruState) (i : Nat) : LruNode :=
  s.nodes.getD i { key := "", size := 0, newer := none, older := none }

/-- Write a node back to the store at an index (JS field assignment on the
referenced object). -/
def setNode (s : LruState) (i : Nat) (n : LruNode) : LruState :=
  { s with nodes := s.nodes.set i n }

/-- The key of the node a `head`/`tail` reference points to, if any. -/
def headKeyOf (s : LruState) : Option String :=
  s.head.map (fun i => (getNode s i).key)

/-- A fresh `Lru` instance (`src/lib/Lru.js` constructor, lines 9-25). -/
def lruInit (maxSize : Option Int) : LruState :=
  { nodes := [], head := none, tail := none, hash := [], size := 0,
    maxSize := maxSize, delLog := [] }

/-- First half of the body of `Lru.prototype.del` (`src/lib/Lru.js` lines
78-84): `if (cursor.newer) { cursor.newer.older = cursor.older; if
(cursor.newer.older === null) this.tail = cursor.newer; } else this.head =
cursor.older`.  Every field access re-reads the current store, exactly like
the JS property reads on the live objects do. -/
def lruUnlinkNewer (ci : Nat) (s : LruState) : LruState :=
  match (getNode s ci).newer with
  | some ni =>
    let sa := setNode s ni { getNode s ni with older := (getNode s ci).older }
    if (getNode sa ni).older = none then { sa with tail := some ni } else sa
  | none => { s with head := (getNode s ci).older }

/-- Second half of the body of `Lru.prototype.del` (`src/lib/Lru.js` lines
89-99): `if (cursor.older) { cursor.older.newer = cursor.newer; if
(cursor.older.newer === null) this.head = cursor.older; } else this.tail =
cursor.newer`. -/
def lruUnlinkOlder (ci : Nat) (s : LruState) : LruState :=
  match (getNode s ci).older with
  | some oi =>
    let sb := setNode s oi { getNode s oi with newer := (getNode s ci).newer }
    if (getNode sb oi).newer = none then { sb with head := some oi } else sb
  | none => { s with tail := (getNode s ci).newer }

/-- Embedding of `Lru.prototype.del` (`src/lib/Lru.js` lines 75-106): when
the key is in the hash, unlink the node's neighbours, subtract its size, fire
the deletion notification unless suppressed (`skipCb` is the
`skipDelCallback` argument), and remove the hash binding. -/
def lruDelAux (skipCb : Bool) (key : String) (s : LruState) : LruState :=
  match lookupA s.hash key with
  | none => s
  | some ci =>
    let s2 := lruUnlinkOlder ci (lruUnlinkNewer ci s)
    let s3 := { s2 with size := s2.size - (getNode s2 ci).size }
    let s4 := if skipCb then s3 else { s3 with delLog := s3.delLog ++ [key] }
    { s4 with hash := delA s4.hash key }

/-- Embedding of `Lru.prototype._moveToHead` (`src/lib/Lru.js` lines 53-68):
if a head exists, first delete any node with the same key (suppressing the
callback), then link the new node in front of the (possibly changed) head;
finally install it as head, add its size, and register it in the hash. -/
def lruMoveToHead (ei : Nat) (s0 : LruState) : LruState :=
  let key := (getNode s0 ei).key
  let s1 :=
    if s0.head = none then s0
    else
      let sd := lruDelAux true key s0
      match sd.head with
      | some hi =>
        let sh := setNode sd hi { getNode sd hi with newer := some ei }
        setNode sh ei { getNode sh ei with older := some hi }
      | none => sd
  let s2 := { s1 with head := some ei }
  let s3 := { s2 with size := s2.size + (getNode s2 ei).size }
  { s3 with hash := setA s3.hash key ei }

/-- Embedding of `Lru.prototype.shift` (`src/lib/Lru.js` lines 111-122).
The source has no null check: with an empty tail, `lastEntry.key` throws a
`TypeError`; likewise `this.head.key` throws if `head` is null while `tail`
is not.  A thrown exception is modelled as `none`. -/
def lruShift (s : LruState) : Option LruState :=
  match s.tail with
  | none => none
  | some ti =>
    let s1 := { s with hash := delA s.hash (getNode s ti).key,
                       size := s.size - (getNode s ti).size }
    match s1.head with
    | none => none
    | some hi =>
      let s2 := if (getNode s1 ti).key = (getNode s1 hi).key
                then { s1 with head := none } else s1
      let s3 := { s2 with tail := (getNode s2 ti).newer }
      some { s3 with delLog := s3.delLog ++ [(getNode s3 ti).key] }

/-- JS comparison `size > maxSize` where `maxSize` may be `undefined`
(`none`): any comparison against `undefined` is false. -/
def sizeGtB (sz : Int) (mx : Option Int) : Bool :=
  match mx with
  | none => false
  | some m => sz > m

/-- The `while (this.size > this.maxSize) this.shift()` loop of
`Lru.prototype.put` (`src/lib/Lru.js` lines 43-45), with explicit fuel.  The
fuel passed by `lruPut` is ample for every terminating run of the JS loop
that the theorems below examine; on inputs where the JS loop would throw, the
`lruShift` failure propagates as `none`. -/
def lruEvict : Nat → LruState → Option LruState
  | 0, s => some s
  | fuel + 1, s =>
    if sizeGtB s.size s.maxSize then (lruShift s).bind (lruEvict fuel)
    else some s

/-- Allocation of `new Entry(key, size)` (`src/lib/Lru.js` lines 144-149):
appends a node to the store; its index is the previous store length. -/
def lruNewNode (key : String) (sz : Int) (s : LruState) : LruState :=
  { s with nodes := s.nodes ++ [{ key := key, size := sz, newer := none, older := none }] }

/-- The body of `Lru.prototype.put` (`src/lib/Lru.js` lines 33-41) before the
eviction loop: allocate the entry, move it to the head, and set the tail if
there was none. -/
def lruPutCore (key : String) (sz : Int) (s : LruState) : LruState :=
  let ei := s.nodes.length
  let s1 := lruMoveToHead ei (lruNewNode key sz s)
  if s1.tail = none then { s1 with tail := some ei } else s1

/-- Embedding of `Lru.prototype.put` (`src/lib/Lru.js` lines 33-46):
`lruPutCore` followed by the eviction loop. -/
def lruPut (key : String) (sz : Int) (s : LruState) : Option LruState :=
  let s1 := lruPutCore key sz s
  lruEvict (s1.nodes.length + 1) s1

/-- Embedding of `Lru.prototype.clear` (`src/lib/Lru.js` lines 124-128): the
source resets only `hash` and `size`; `head` and `tail` are left untouched. -/
def lruClear (s : LruState) : LruState :=
  { s with hash := [], size := 0 }

/-- The five-operation trace refuting the LRU size invariant (claim C4), on
an `Lru` with `maxSize = 2`: `put('A',1); put('B',2); del('B'); put('C',3);
del('C')`.  The eviction inside `put('B',2)` removes node A from the hash but
leaves B's `older` reference and the orchestration of `del('B')` then parks
`tail` on the removed node B, so the eviction inside `put('C',3)` subtracts
B's size a second time. -/
def c4Trace : Option LruState :=
  ((lruPut "A" 1 (lruInit (some 2))).bind (lruPut "B" 2)
      |>.map (lruDelAux false "B")
      |>.bind (lruPut "C" 3))
    |>.map (lruDelAux false "C")

/-- Result of invoking a user callback `callback(err, value)`: either a value
(possibly `undefined`) with a null error, or an error message. -/
inductive CbResult (α : Type) where
  | ok : Option α → CbResult α
  | fail : String → CbResult α
deriving DecidableEq, Repr

/-- A waiter in the per-key lock table: `some i` is the i-th user callback,
`none` is the internal debug-only callback that `_fetch` creates when invoked
without one (`src/main.js` lines 230-234). -/
abbrev Waiter := Option Nat

/-- The mutable state of a `CrispCache` instance (`src/main.js` constructor,
first snapshot lines 12-52): the entry map `cache`, the per-key lock table
`locks`, the optional LRU (present iff `maxSize` was configured), and the
configured TTL defaults (the variance options are modelled at their default
`0`, in which case `_getDefaultStaleTtl`/`_getDefaultExpiresTtl` return the
configured defaults unchanged).  `delivered` is a ghost log of callback
invocations and `fetches` a ghost log of fetcher dispatches, in order. -/
structure CrispState (α : Type) where
  cache : List (String × CacheEntryJS α)
  locks : List (String × List Waiter)
  lru : Option LruState
  defaultStaleTtl : Option Int
  defaultExpiresTtl : Option Int
  delivered : List (Waiter × CbResult α)
  fetches : List String
deriving DecidableEq, Repr

/-- Options accepted by `set`/`_fetch` (`{staleTtl, expiresTtl, size}`);
absent fields are `undefined`. -/
structure SetOpts where
  staleTtl : Option Int := none
  expiresTtl : Option Int := none
  size : Option Int := none
deriving DecidableEq, Repr

/-- Options accepted by `get` (`{forceFetch, skipFetch}`). -/
structure GetOpts where
  forceFetch : Bool := false
  skipFetch : Bool := false
deriving DecidableEq, Repr

/-- Append a callback invocation to the ghost log. -/
def deliver (w : Waiter) (r : CbResult α) (s : CrispState α) : CrispState α :=
  { s with delivered := s.delivered ++ [(w, r)] }

/-- Embedding of `CrispCache.prototype._lock` (`src/main.js` lines 315-324):
returns whether the lock was acquired (no entry existed for the key) and the
updated state; otherwise the callback is appended to the existing queue. -/
def lockOp (key : String) (w : Waiter) (s : CrispState α) : Bool × CrispState α :=
  match lookupA s.locks key with
  | none => (true, { s with locks := setA s.locks key [w] })
  | some ws => (false, { s with locks := setA s.locks key (ws ++ [w]) })

/-- Embedding of `CrispCache.prototype._resolveLocks` (`src/main.js` lines
334-346): if a queue exists for the key, it is removed from the table and
every queued callback is invoked, each with the error if one is given, else
with the value. -/
def resolveLocksOp (key : String) (value : Option α) (errMsg : Option String)
    (s : CrispState α) : CrispState α :=
  match lookupA s.locks key with
  | none => s
  | some ws =>
    { s with locks := delA s.locks key,
             delivered := s.delivered ++ ws.map (fun w =>
               (w, match errMsg with
                   | some m => CbResult.fail m
                   | none => CbResult.ok value)) }

/-- The part of `CrispCache.prototype._fetch` (`src/main.js` lines 223-265)
that runs synchronously when `_fetch` is called: acquire or join the per-key
lock, and dispatch the fetcher exactly when the lock was acquired.  The
fetcher's later completion is a separate event (`fetchSuccessOp` /
`fetchErrorV1Op` / `fetchErrorV2Op`), which receives the `options` captured
here. -/
def fetchStart (key : String) (w : Waiter) (s : CrispState α) : CrispState α :=
  let (acquired, s1) := lockOp key w s
  if acquired then { s1 with fetches := s1.fetches ++ [key] } else s1

/-- Embedding of `CrispCache.prototype.set` (`src/main.js` first snapshot,
lines 145-185).  TTLs are resolved against the configured defaults when
`undefined`; with an LRU configured and no `size` option the source reports
an error to the caller and stores nothing (the optional success callback,
invoked with `(null, true)`, is not part of any claim and is omitted);
otherwise, unless the resolved expires TTL is exactly `0`
(`if (expiresTtl !== 0)`), a `CacheEntry` is constructed and stored and the
LRU is updated, and in every non-error case the pending locks for the key are
resolved with the raw value. -/
def setOp (now : Int) (key : String) (value : Option α) (opts : SetOpts)
    (s : CrispState α) : Option (CrispState α) :=
  let staleTtl := opts.staleTtl <|> s.defaultStaleTtl
  let expiresTtl := opts.expiresTtl <|> s.defaultExpiresTtl
  if s.lru.isSome ∧ opts.size = none then some s
  else
    let afterStore : Option (CrispState α) :=
      if expiresTtl = some 0 then some s
      else
        let e := mkCacheEntryJS value staleTtl expiresTtl opts.size now
        let s1 := { s with cache := setA s.cache key e }
        match s1.lru with
        | none => some s1
        | some L => (lruPut key e.size L).map (fun L2 => { s1 with lru := some L2 })
    afterStore.map (resolveLocksOp key value none)

/-- Embedding of `CrispCache.prototype.del` (`src/main.js` lines 195-210)
with default options: delete from the LRU (suppressing its callback), delete
the cache entry, and resolve any pending locks with `undefined`. -/
def delOp (key : String) (s : CrispState α) : CrispState α :=
  let s1 :=
    match s.lru with
    | some L => { s with lru := some (lruDelAux true key L) }
    | none => s
  resolveLocksOp key none none { s1 with cache := delA s1.cache key }

/-- Embedding of `CrispCache.prototype.get` (`src/main.js` first snapshot,
lines 65-134).  The source branches on `isValid()/isStale()/isExpired()`,
three exhaustive projections of `getState`, modelled as a match on
`entryState`.  A miss (absent entry or `forceFetch`) either returns
`undefined` (`skipFetch`) or starts a coordinated fetch with the caller as
waiter; a valid hit touches the LRU and returns the value; a stale hit
touches the LRU, returns the value, then starts a background fetch with the
entry's TTLs and the internal debug callback as waiter; an expired hit
deletes the entry and then either returns `undefined` (`skipFetch`) or starts
a coordinated fetch with the caller as waiter.  An LRU touch that throws
inside the JS eviction loop is propagated as `none`. -/
def getOp (now : Int) (key : String) (g : GetOpts) (w : Waiter)
    (s : CrispState α) : Option (CrispState α) :=
  match lookupA s.cache key, g.forceFetch with
  | some e, false =>
    match entryState e now with
    | .VALID =>
      match s.lru with
      | some L => (lruPut key e.size L).map
          (fun L2 => deliver w (.ok e.value) { s with lru := some L2 })
      | none => some (deliver w (.ok e.value) s)
    | .STALE =>
      let touched : Option (CrispState α) :=
        match s.lru with
        | some L => (lruPut key e.size L).map (fun L2 => { s with lru := some L2 })
        | none => some s
      touched.map (fun s1 => fetchStart key none (deliver w (.ok e.value) s1))
    | .EXPIRED =>
      if g.skipFetch then some (deliver w (.ok none) (delOp key s))
      else some (fetchStart key w (delOp key s))
  | _, _ =>
    if g.skipFetch then some (deliver w (.ok none) s)
    else some (fetchStart key w s)

/-- Merging of the fetcher-supplied per-call options into the options
captured by `_fetch` (`src/main.js` lines 247-261): each defined field of
`fetcherOptions` overrides the captured one. -/
def mergeOpts (base : SetOpts) (fOpts : Option SetOpts) : SetOpts :=
  match fOpts with
  | none => base
  | some fo =>
    { staleTtl := fo.staleTtl <|> base.staleTtl,
      expiresTtl := fo.expiresTtl <|> base.expiresTtl,
      size := fo.size <|> base.size }

/-- Completion of a successful fetch (`src/main.js` lines 237-263 with
`err = null`, identical in the later snapshots): merge the fetcher's options
into the captured ones and call `set`, which stores the entry and resolves
the waiting locks. -/
def fetchSuccessOp (now : Int) (key : String) (value : Option α)
    (fOpts : Option SetOpts) (base : SetOpts) (s : CrispState α) :
    Option (CrispState α) :=
  setOp now key value (mergeOpts base fOpts) s

/-- Completion of a failed fetch in the FIRST `src/main.js` snapshot (lines
237-263): the locks are resolved with the error, but the handler does not
return, so execution falls through and still calls
`this.set(key, value, options)` with `value === undefined`. -/
def fetchErrorV1Op (now : Int) (key : String) (msg : String) (base : SetOpts)
    (fOpts : Option SetOpts) (s : CrispState α) : Option (CrispState α) :=
  setOp now key none (mergeOpts base fOpts) (resolveLocksOp key none (some msg) s)

/-- Completion of a failed fetch in the SECOND `src/main.js` snapshot (lines
680-686, with the added `return;`) and in `src/unnamed/part_013` lines
405-409: the locks are resolved with the error and nothing else happens. -/
def fetchErrorV2Op (key : String) (msg : String) (s : CrispState α) :
    CrispState α :=
  resolveLocksOp key none (some msg) s

/-- A freshly constructed, unbounded `CrispCache` with
`defaultStaleTtl = 300` and `defaultExpiresTtl = 500` (the configuration of
the repository's basic tests). -/
def basicInit : CrispState String :=
  { cache := [], locks := [], lru := none, defaultStaleTtl := some 300,
    defaultExpiresTtl := some 500, delivered := [], fetches := [] }

/-- The run refuting claim C3 on the first `src/main.js` snapshot: a `get` on
the missing key `'hello'` (waiter 0) dispatches the fetcher; the fetcher
fails at time 1; a second `get` (waiter 1) follows at time 2. -/
def c3Run : Option (CrispState String) :=
  (getOp 0 "hello" {} (some 0) basicInit).bind (fun s1 =>
    (fetchErrorV1Op 1 "hello" "fetch failed" {} none s1).bind (fun s2 =>
      getOp 2 "hello" {} (some 1) s2))

/-- A sequence of plain `get` calls (no options) on one key by the listed
waiters, in order — the arrival of N callers before the fetch completes. -/
def runGets (now : Int) (key : String) (ids : List Nat) (s : CrispState α) :
    Option (CrispState α) :=
  ids.foldlM (fun st i => getOp now key {} (some i) st) s

/-- A concrete already-expired entry (created at 0, stale TTL 1000, expires
TTL 5, queried at any time past 5) used by the C6 witness. -/
def expiredEntry : CacheEntryJS String :=
  { value := some "old", staleTtl := 1000, expiresTtl := 5, created := 0, size := 0 }

/-- An unbounded cache already holding the expired entry under key `'k'`,
used by the C6 witness. -/
def expiredCacheInit : CrispState String :=
  { cache := [("k", expiredEntry)], locks := [], lru := none,
    defaultStaleTtl := some 300, defaultExpiresTtl := some 500,
    delivered := [], fetches := [] }

/-- A concrete valid entry of size 1 used by the C10 witness. -/
def validEntry : CacheEntryJS String :=
  { value := some "v", staleTtl := 300, expiresTtl := 500, created := 0, size := 1 }

/-- A size-bounded `CrispCache` (maxSize 10, empty LRU) already holding
`validEntry` under key `'k'`, used by the C10 witness. -/
def lruCacheInit : CrispState String :=
  { cache := [("k", validEntry)], locks := [], lru := some (lruInit (some 10)),
    defaultStaleTtl := some 300, defaultExpiresTtl := some 500,
    delivered := [], fetches := [] }

/-- C1, counterexample.  The claim states that an entry whose stale TTL is
`-1` is never `STALE`; `CacheEntry.prototype.getState` of
`src/lib/CacheEntry.js` (cited by the claim) checks `now > created + staleTtl`
first, with no sign guard, so an entry created at time `0` with stale TTL `-1`
is already `STALE` at time `0`. -/
theorem c1_counterexample : legacyGetState 0 (-1) (-1) 0 = EntryState.STALE := by
  decide

/-- C1, amended.  For the TypeScript `CacheEntry.state` (src/src/lib/CacheEntry.ts
lines 33-44) the claimed rule holds exactly: the state is `EXPIRED` iff the
expires TTL is ≥ 0 and `now > created + expires`; otherwise `STALE` iff the
stale TTL is ≥ 0 and `now > created + stale`; otherwise `VALID`; in particular
a TTL of `-1` means "never" on its axis.  (The legacy JS `getState` cited
alongside it diverges, per the counterexample.) -/
theorem c1_freshness_ts (created staleTtl expiresTtl now : Int) :
    (tsState created staleTtl expiresTtl now = .EXPIRED ↔
      expiresTtl ≥ 0 ∧ now > created + expiresTtl) ∧
    (tsState created staleTtl expiresTtl now = .STALE ↔
      ¬(expiresTtl ≥ 0 ∧ now > created + expiresTtl) ∧
        staleTtl ≥ 0 ∧ now > created + staleTtl) ∧
    (tsState created staleTtl expiresTtl now = .VALID ↔
      ¬(expiresTtl ≥ 0 ∧ now > created + expiresTtl) ∧
        ¬(staleTtl ≥ 0 ∧ now > created + staleTtl)) ∧
    (staleTtl = -1 → tsState created staleTtl expiresTtl now ≠ .STALE) ∧
    (expiresTtl = -1 → tsState created staleTtl expiresTtl now ≠ .EXPIRED) := by
  unfold tsState
  split
  · refine ⟨by simp_all, by simp_all, by simp_all, ?_, ?_⟩
    · intro _ h
      simp at h
    · rintro rfl h
      omega
  · split
    · refine ⟨by simp_all, by simp_all, by simp_all, ?_, ?_⟩
      · rintro rfl h
        omega
      · intro _ h
        simp at h
    · refine ⟨by simp_all, by simp_all, by simp_all, ?_, ?_⟩
      · intro _ h
        simp at h
      · intro _ h
        simp at h

/-- C1, witness: the amended rule applied at a concrete input — an entry with
stale TTL `-1` and expires TTL `7` is `EXPIRED`, not `STALE`, at time `8`. -/
theorem c1_freshness_ts_witness :
    tsState 0 (-1) 7 8 = EntryState.EXPIRED ∧
      tsState 0 (-1) 7 8 ≠ EntryState.STALE :=
  ⟨(c1_freshness_ts 0 (-1) 7 8).1.mpr (by decide),
   (c1_freshness_ts 0 (-1) 7 8).2.2.2.1 rfl⟩

/-- C9, counterexample.  The claim states that a stale TTL passed as exactly
`0` is kept on the constructed entry; the `CacheEntry` constructors cited by
the claim (src/lib/CacheEntry.js lines 1-6, src/unnamed/part_004 lines 1-8)
compute `options.staleTtl || 300000`, and `0` is falsy, so the entry's stale
TTL becomes the built-in default `300000`. -/
theorem c9_counterexample :
    (mkCacheEntryJS (some "x") (some 0) (some 500) none 0).staleTtl = 300000 := by
  decide

/-- C9, amended.  In the JS `CacheEntry` constructors a stale TTL of exactly
`0`, like an unset one, is replaced by the built-in default `300000` (the
`||` default conflates `0` with "unset"); an explicit stale TTL of `0` is
preserved only by the TypeScript `CacheEntry` constructor, whose
`Object.assign` defaults apply only when the whole `ttls` option is absent. -/
theorem c9_stale_zero (v : Option String) (eo so : Option Int) (n e : Int) :
    (mkCacheEntryJS v (some 0) eo so n).staleTtl = 300000 ∧
    (mkCacheEntryJS v none eo so n).staleTtl = 300000 ∧
    (tsCtorTtls (some (0, e))).1 = 0 ∧
    (tsCtorTtls none).1 = 300000 := by
  exact ⟨rfl, rfl, rfl, rfl⟩

/-- C4, code bug.  After `put('A',1); put('B',2); del('B'); put('C',3)` the
aggregate size is `1` although the only held node, C, has size `3`; after the
final `del('C')` the aggregate size is `-2` with no nodes held at all.  The
claim (and the spec's LRU invariant) requires the aggregate size to equal the
sum of held node sizes and never be negative. -/
theorem c4_lru_size_negative :
    (((lruPut "A" 1 (lruInit (some 2))).bind (lruPut "B" 2)
        |>.map (lruDelAux false "B")
        |>.bind (lruPut "C" 3))
      |>.map (fun s => (s.size, (lookupA s.hash "C").map (fun i => (getNode s i).size))))
      = some (1, some 3) ∧
    c4Trace.map (fun s => (s.size, s.hash)) = some (-2, []) := by
  constructor
  · decide
  · decide

/-- C7, code bug.  `Lru.prototype.shift` on an empty LRU dereferences the
null `tail` (`lastEntry.key`) and throws, modelled as `none` — the claim (and
the repo's own test "Should shift nothing" in `src/test/lru-test.js`) expects
a harmless no-op.  The second conjunct checks the single-remaining-node part
of the claim, which does hold: after `put('a',1)`, one `shift` empties both
`head` and `tail`, decrements the size by the node's size, and fires the
deletion notification for `'a'`. -/
theorem c7_shift_empty_crash :
    lruShift (lruInit (some 10)) = none ∧
    ((lruPut "a" 1 (lruInit (some 10))).bind lruShift).map
        (fun s => (s.head, s.tail, s.size, s.delLog))
      = some (none, none, 0, ["a"]) := by
  constructor
  · decide
  · decide

/-- C8, code bug.  `Lru.prototype.clear` resets only `hash` and `size`; after
`put('a',1); clear()` the aggregate size is `0` and the hash is empty, but
`head` and `tail` still reference the removed node (`headKeyOf` is still
`'a'`) — the claim (and the repo's own clear test in `src/test/lru-test.js`)
expects both to be empty. -/
theorem c8_clear_leaves_head :
    ((lruPut "a" 1 (lruInit (some 10))).map lruClear).map
        (fun s => (s.size, s.hash, s.head, s.tail, headKeyOf s))
      = some (0, [], some 0, some 0, some "a") := by
  decide

/-- C3, code bug.  On the first `src/main.js` snapshot, when the fetcher for
`'hello'` fails, the queued waiter does receive the error (first delivery),
but the missing `return` after `_resolveLocks` lets `_fetch` fall through to
`set(key, undefined, options)`, which stores a `CacheEntry` whose value is
`undefined` (the cache maps `'hello'` to an entry with value `none`): the
cache is NOT left as it was before the fetch.  A subsequent `get` then hits
that poisoned entry and is answered `undefined` as a success, with no second
fetcher dispatch (`fetches` still has length 1) — instead of re-attempting
the fetch as the claim requires.  The later snapshots (second `src/main.js`
snapshot line 685, `src/unnamed/part_013` line 409) add the `return;`,
showing the intent; see `c3_fixed_snapshot` for their behaviour. -/
theorem c3_error_caches_undefined :
    c3Run.map (fun s =>
        (s.delivered, s.fetches, (lookupA s.cache "hello").map (fun e => e.value)))
      = some ([(some 0, .fail "fetch failed"), (some 1, .ok none)],
              ["hello"], some none) := by
  decide

/-- Supporting observation for C3 (not itself a claim theorem): with the
second snapshot's error handler, the failed fetch leaves the cache unchanged
for every state, so a later `get` on a previously missing key misses again. -/
theorem c3_fixed_snapshot (key msg : String) (s : CrispState String) :
    (fetchErrorV2Op key msg s).cache = s.cache ∧
      (fetchErrorV2Op key msg s).fetches = s.fetches := by
  unfold fetchErrorV2Op resolveLocksOp
  cases h : lookupA s.locks key <;> simp

theorem lookupA_setA_self {β : Type} (l : List (String × β)) (k : String) (v : β) :
    lookupA (setA l k v) k = some v := by
  induction l with
  | nil => simp [setA, lookupA]
  | cons hd tl ih =>
    obtain ⟨k2, w⟩ := hd
    by_cases h : k2 = k <;> simp [setA, lookupA, h, ih]

theorem setA_setA {β : Type} (l : List (String × β)) (k : String) (v w : β) :
    setA (setA l k v) k w = setA l k w := by
  induction l with
  | nil => simp [setA]
  | cons hd tl ih =>
    obtain ⟨k2, u⟩ := hd
    by_cases h : k2 = k <;> simp [setA, h, ih]

theorem setA_eq_of_lookupA {β : Type} (l : List (String × β)) (k : String) (v : β)
    (h : lookupA l k = some v) : setA l k v = l := by
  induction l with
  | nil => simp [lookupA] at h
  | cons hd tl ih =>
    obtain ⟨k2, w⟩ := hd
    by_cases hk : k2 = k
    · simp [lookupA, hk] at h
      simp [setA, hk, h]
    · simp [lookupA, hk] at h
      simp [setA, hk, ih h]

theorem delA_setA_of_lookupA_none {β : Type} (l : List (String × β)) (k : String)
    (v : β) (h : lookupA l k = none) : delA (setA l k v) k = l := by
  induction l with
  | nil => simp [setA, delA]
  | cons hd tl ih =>
    obtain ⟨k2, w⟩ := hd
    by_cases hk : k2 = k
    · simp [lookupA, hk] at h
    · simp [lookupA, hk] at h
      simp [setA, delA, hk, ih h]

/-- A `get` on a missing key with no fetch in flight acquires the per-key
lock (queue `[some i]`) and dispatches the fetcher. -/
theorem getOp_miss_first (now : Int) (key : String) (i : Nat) (s : CrispState α)
    (hmiss : lookupA s.cache key = none) (hlock : lookupA s.locks key = none) :
    getOp now key {} (some i) s
      = some { s with locks := setA s.locks key [some i],
                      fetches := s.fetches ++ [key] } := by
  simp [getOp, hmiss, fetchStart, lockOp, hlock]

/-- A `get` on a missing key while a fetch is in flight only appends its
callback to the existing queue; the fetcher is not dispatched again. -/
theorem getOp_miss_queued (now : Int) (key : String) (i : Nat) (ws : List Waiter)
    (s : CrispState α)
    (hmiss : lookupA s.cache key = none) (hlock : lookupA s.locks key = some ws) :
    getOp now key {} (some i) s
      = some { s with locks := setA s.locks key (ws ++ [some i]) } := by
  simp [getOp, hmiss, fetchStart, lockOp, hlock]

/-- Folding further `get` calls over a state with a nonempty queue for the
key appends all of them to the queue and changes nothing else. -/
theorem runGets_queued (now : Int) (key : String) (pending : List Nat)
    (ws : List Waiter) (s : CrispState α)
    (hmiss : lookupA s.cache key = none) (hlock : lookupA s.locks key = some ws) :
    runGets now key pending s
      = some { s with locks := setA s.locks key (ws ++ pending.map some) } := by
  induction pending generalizing s ws with
  | nil =>
    simp [runGets, setA_eq_of_lookupA s.locks key ws hlock]
  | cons i rest ih =>
    have hstep := getOp_miss_queued now key i ws s hmiss hlock
    have hrec := ih (ws ++ [some i]) { s with locks := setA s.locks key (ws ++ [some i]) }
      hmiss (lookupA_setA_self s.locks key (ws ++ [some i]))
    simp only [runGets, List.foldlM_cons] at hrec ⊢
    rw [hstep]
    simp only [Option.bind_eq_bind, Option.some_bind] at hrec ⊢
    rw [hrec, setA_setA]
    simp

/-- C2, part of the claim proved as stated.  Starting from any state with the
key absent from the cache and no fetch in flight, a sequence of `N ≥ 1` `get`
calls on that key (waiters `i0 :: rest`), all arriving before the fetch
completes, dispatches the fetcher exactly once, leaves the per-key lock-table
entry holding exactly the `N` waiters in arrival order while the fetch is in
flight, and, when the fetch completes (`fetchSuccessOp`, at any later time
with any resolved value `v`), removes the lock-table entry and delivers the
same resolved value `v` to every one of the `N` waiters.  The hypothesis
`s.lru = none` restricts the statement to a cache without a `maxSize` bound
(with one, the completion path additionally requires a fetcher-supplied
size). -/
theorem c2_single_flight (s : CrispState String) (key : String) (i0 : Nat)
    (rest : List Nat) (now later : Int) (v : String)
    (hmiss : lookupA s.cache key = none)
    (hlock : lookupA s.locks key = none)
    (hlru : s.lru = none) :
    ∃ s1, runGets now key (i0 :: rest) s = some s1 ∧
      s1.fetches = s.fetches ++ [key] ∧
      lookupA s1.locks key = some ((i0 :: rest).map some) ∧
      ∃ s2, fetchSuccessOp later key (some v) none {} s1 = some s2 ∧
        lookupA s2.locks key = none ∧
        s2.delivered = s1.delivered
          ++ (i0 :: rest).map (fun i => (some i, CbResult.ok (some v))) := by
  have hstep := getOp_miss_first now key i0 s hmiss hlock
  set sA : CrispState String :=
    { s with locks := setA s.locks key [some i0], fetches := s.fetches ++ [key] }
    with hsA
  have hrec := runGets_queued now key rest [some i0] sA hmiss
    (lookupA_setA_self s.locks key [some i0])
  set s1 : CrispState String :=
    { sA with locks := setA sA.locks key ([some i0] ++ rest.map some) } with hs1
  have hrun : runGets now key (i0 :: rest) s = some s1 := by
    simp only [runGets, List.foldlM_cons] at hrec ⊢
    rw [hstep]
    simpa using hrec
  have hlocks1 : s1.locks = setA s.locks key (some i0 :: rest.map some) := by
    simp [hs1, hsA, setA_setA]
  refine ⟨s1, hrun, rfl, ?_, ?_⟩
  · rw [hlocks1]
    exact lookupA_setA_self s.locks key (some i0 :: rest.map some)
  · -- completion: `set` with no per-call options resolves the queue
    have hl1 : lookupA s1.locks key = some (some i0 :: rest.map some) := by
      rw [hlocks1]
      exact lookupA_setA_self s.locks key (some i0 :: rest.map some)
    have hlru1 : s1.lru = none := hlru
    have hdel : delA s1.locks key = s.locks := by
      rw [hlocks1]
      exact delA_setA_of_lookupA_none s.locks key _ hlock
    unfold fetchSuccessOp setOp mergeOpts
    rw [hlru1]
    simp only [Option.isSome_none, Bool.false_eq_true, false_and, if_false]
    by_cases hz : ((none : Option Int) <|> s1.defaultExpiresTtl) = some 0
    · rw [if_pos hz]
      refine ⟨_, rfl, ?_, ?_⟩
      · simp [resolveLocksOp, setA_setA, lookupA_setA_self,
          delA_setA_of_lookupA_none s.locks key _ hlock, hlock]
      · simp [resolveLocksOp, setA_setA, lookupA_setA_self, List.map_map,
          Function.comp]
    · rw [if_neg hz]
      refine ⟨_, rfl, ?_, ?_⟩
      · simp [resolveLocksOp, setA_setA, lookupA_setA_self,
          delA_setA_of_lookupA_none s.locks key _ hlock, hlock]
      · simp [resolveLocksOp, setA_setA, lookupA_setA_self, List.map_map,
          Function.comp]

/-- C2, witness: the single-flight theorem at the concrete state
`basicInit`, key `'k'`, one waiter `7`. -/
theorem c2_single_flight_witness :
    ∃ s1, runGets 0 "k" [7] basicInit = some s1 ∧
      s1.fetches = basicInit.fetches ++ ["k"] ∧
      lookupA s1.locks "k" = some ([7].map some) ∧
      ∃ s2, fetchSuccessOp 1 "k" (some "v") none {} s1 = some s2 ∧
        lookupA s2.locks "k" = none ∧
        s2.delivered = s1.delivered
          ++ [7].map (fun i => (some i, CbResult.ok (some "v"))) :=
  c2_single_flight basicInit "k" 7 [] 0 1 "v" rfl rfl rfl

theorem lookupA_eq_none_of_not_mem {β : Type} (l : List (String × β)) (k : String)
    (h : k ∉ l.map Prod.fst) : lookupA l k = none := by
  induction l with
  | nil => rfl
  | cons hd tl ih =>
    obtain ⟨k2, w⟩ := hd
    simp only [List.map_cons, List.mem_cons, not_or] at h
    have hne : ¬k2 = k := fun hh => h.1 hh.symm
    simp [lookupA, hne, ih h.2]

theorem lookupA_delA_of_nodup {β : Type} (l : List (String × β)) (k : String)
    (h : (l.map Prod.fst).Nodup) : lookupA (delA l k) k = none := by
  induction l with
  | nil => rfl
  | cons hd tl ih =>
    obtain ⟨k2, w⟩ := hd
    simp only [List.map_cons, List.nodup_cons] at h
    by_cases hk : k2 = k
    · subst hk
      simp only [delA, if_pos rfl]
      exact lookupA_eq_none_of_not_mem tl k2 h.1
    · simp [delA, lookupA, hk, ih h.2]

theorem resolveLocksOp_cache (key : String) (v : Option α) (e : Option String)
    (s : CrispState α) : (resolveLocksOp key v e s).cache = s.cache := by
  unfold resolveLocksOp
  cases h : lookupA s.locks key <;> simp

theorem resolveLocksOp_fetches (key : String) (v : Option α) (e : Option String)
    (s : CrispState α) : (resolveLocksOp key v e s).fetches = s.fetches := by
  unfold resolveLocksOp
  cases h : lookupA s.locks key <;> simp

theorem delOp_fetches (key : String) (s : CrispState α) :
    (delOp key s).fetches = s.fetches := by
  unfold delOp
  cases h : s.lru <;> simp [resolveLocksOp_fetches]

theorem delOp_cache (key : String) (s : CrispState α) :
    (delOp key s).cache = delA s.cache key := by
  unfold delOp
  cases h : s.lru <;> simp [resolveLocksOp_cache]

/-- C5, confirmed.  A `set` whose resolved expires TTL (the per-call option,
falling back to the configured default) is exactly `0` writes nothing: the
cache is unchanged, so the key — missing before — is still missing, and a
subsequent plain `get` takes the miss path and dispatches the fetcher; the
waiters pending on the key are nevertheless resolved with the value, and the
lock-table entry is removed.  The hypothesis `hsz` excludes the unrelated
missing-size error return (with a `maxSize` bound, `set` requires a size);
`hwf` states that the lock table, a JS object, has no duplicate keys. -/
theorem c5_zero_ttl_bypass (s : CrispState String) (key : String) (v : Option String)
    (opts : SetOpts) (now now2 : Int) (cb : Nat)
    (hzero : (opts.expiresTtl <|> s.defaultExpiresTtl) = some 0)
    (hsz : s.lru = none ∨ opts.size ≠ none)
    (hwf : (s.locks.map Prod.fst).Nodup) :
    ∃ s1, setOp now key v opts s = some s1 ∧
      s1.cache = s.cache ∧
      lookupA s1.locks key = none ∧
      s1.delivered = s.delivered
        ++ ((lookupA s.locks key).getD []).map (fun w => (w, CbResult.ok v)) ∧
      (lookupA s.cache key = none →
        getOp now2 key {} (some cb) s1
          = some { s1 with locks := setA s1.locks key [some cb],
                           fetches := s1.fetches ++ [key] }) := by
  have hguard : ¬(s.lru.isSome ∧ opts.size = none) := by
    rcases hsz with h | h
    · simp [h]
    · simp [h]
  unfold setOp
  rw [if_neg hguard, if_pos hzero]
  cases hl : lookupA s.locks key with
  | none =>
    have hres : resolveLocksOp key v none s = s := by
      simp [resolveLocksOp, hl]
    refine ⟨resolveLocksOp key v none s, rfl, by rw [hres], by rw [hres]; exact hl,
      by simp [hres, hl], ?_⟩
    intro hmiss
    rw [hres]
    exact getOp_miss_first now2 key cb s hmiss hl
  | some ws =>
    have hlocks : (resolveLocksOp key v none s).locks = delA s.locks key := by
      simp [resolveLocksOp, hl]
    have hcache := resolveLocksOp_cache key v none s
    have hnone : lookupA (delA s.locks key) key = none :=
      lookupA_delA_of_nodup s.locks key hwf
    refine ⟨resolveLocksOp key v none s, rfl, hcache, by rw [hlocks]; exact hnone,
      by simp [resolveLocksOp, hl], ?_⟩
    intro hmiss
    exact getOp_miss_first now2 key cb (resolveLocksOp key v none s)
      (by rw [hcache]; exact hmiss) (by rw [hlocks]; exact hnone)

/-- C5, witness: a `set` of `'k'` with per-call `expiresTtl = 0` on the fresh
unbounded cache, followed by a `get` of `'k'` at a later time. -/
theorem c5_zero_ttl_bypass_witness :
    ∃ s1, setOp 0 "k" (some "v") { expiresTtl := some 0 } basicInit = some s1 ∧
      s1.cache = basicInit.cache ∧
      lookupA s1.locks "k" = none ∧
      s1.delivered = basicInit.delivered
        ++ ((lookupA basicInit.locks "k").getD []).map
            (fun w => (w, CbResult.ok (some "v"))) ∧
      (lookupA basicInit.cache "k" = none →
        getOp 5 "k" {} (some 2) s1
          = some { s1 with locks := setA s1.locks "k" [some 2],
                           fetches := s1.fetches ++ ["k"] }) :=
  c5_zero_ttl_bypass basicInit "k" (some "v") { expiresTtl := some 0 } 0 5 2
    rfl (Or.inl rfl) (by decide)

/-- C6, confirmed.  A `get` with `skipFetch` on a missing key answers the
caller `undefined` and changes nothing else (in particular the fetcher is not
dispatched); on a key whose entry is `EXPIRED` it deletes the entry, answers
the caller `undefined`, and again never dispatches the fetcher.  `hwfc`
states that the cache, a JS object, has no duplicate keys. -/
theorem c6_skip_fetch (s : CrispState String) (key : String) (cb : Nat)
    (e : CacheEntryJS String) (now : Int)
    (hwfc : (s.cache.map Prod.fst).Nodup) :
    (lookupA s.cache key = none →
      getOp now key ⟨false, true⟩ (some cb) s
        = some (deliver (some cb) (.ok none) s)) ∧
    (lookupA s.cache key = some e → entryState e now = .EXPIRED →
      ∃ s2, getOp now key ⟨false, true⟩ (some cb) s = some s2 ∧
        s2.fetches = s.fetches ∧
        lookupA s2.cache key = none ∧
        s2.delivered = (delOp key s).delivered ++ [(some cb, CbResult.ok none)]) := by
  constructor
  · intro hmiss
    simp [getOp, hmiss]
  · intro hhit hexp
    refine ⟨deliver (some cb) (.ok none) (delOp key s), ?_, ?_, ?_, rfl⟩
    · simp [getOp, hhit, hexp]
    · simp [deliver, delOp_fetches]
    · simp only [deliver]
      rw [delOp_cache]
      exact lookupA_delA_of_nodup s.cache key hwfc

/-- C6, witness: the expired-entry half of the theorem at the concrete state
`expiredCacheInit`, queried at time 100 with `skipFetch`. -/
theorem c6_skip_fetch_witness :
    ∃ s2, getOp 100 "k" ⟨false, true⟩ (some 0) expiredCacheInit = some s2 ∧
      s2.fetches = expiredCacheInit.fetches ∧
      lookupA s2.cache "k" = none ∧
      s2.delivered = (delOp "k" expiredCacheInit).delivered
        ++ [(some 0, CbResult.ok none)] :=
  (c6_skip_fetch expiredCacheInit "k" 0 expiredEntry 100 (by decide)).2
    (by decide) (by decide)

theorem getD_set_older (l : List LruNode) (i j : Nat) (d : LruNode) (o : Option Nat) :
    ((l.set i { l.getD i d with older := o }).getD j d).key = (l.getD j d).key := by
  induction l generalizing i j with
  | nil => simp
  | cons x xs ih =>
    cases i with
    | zero => cases j <;> simp [List.getD_cons_zero, List.getD_cons_succ]
    | succ i2 =>
      cases j with
      | zero => simp [List.getD_cons_zero, List.getD_cons_succ]
      | succ j2 => simpa [List.getD_cons_succ] using ih i2 j2

theorem getD_set_newer (l : List LruNode) (i j : Nat) (d : LruNode) (nw : Option Nat) :
    ((l.set i { l.getD i d with newer := nw }).getD j d).key = (l.getD j d).key := by
  induction l generalizing i j with
  | nil => simp
  | cons x xs ih =>
    cases i with
    | zero => cases j <;> simp [List.getD_cons_zero, List.getD_cons_succ]
    | succ i2 =>
      cases j with
      | zero => simp [List.getD_cons_zero, List.getD_cons_succ]
      | succ j2 => simpa [List.getD_cons_succ] using ih i2 j2

/-- Re-linking a node (a write to its `older` field) never changes any key in
the store. -/
theorem keyAt_setNode_older (s : LruState) (i j : Nat) (o : Option Nat) :
    (getNode (setNode s i { getNode s i with older := o }) j).key
      = (getNode s j).key := by
  unfold getNode setNode
  exact getD_set_older s.nodes i j _ o

/-- Re-linking a node (a write to its `newer` field) never changes any key in
the store. -/
theorem keyAt_setNode_newer (s : LruState) (i j : Nat) (nw : Option Nat) :
    (getNode (setNode s i { getNode s i with newer := nw }) j).key
      = (getNode s j).key := by
  unfold getNode setNode
  exact getD_set_newer s.nodes i j _ nw

theorem keyAt_lruUnlinkNewer (ci : Nat) (s : LruState) (j : Nat) :
    (getNode (lruUnlinkNewer ci s) j).key = (getNode s j).key := by
  unfold lruUnlinkNewer
  split
  · dsimp only
    split
    · exact keyAt_setNode_older s _ j _
    · exact keyAt_setNode_older s _ j _
  · rfl

theorem keyAt_lruUnlinkOlder (ci : Nat) (s : LruState) (j : Nat) :
    (getNode (lruUnlinkOlder ci s) j).key = (getNode s j).key := by
  unfold lruUnlinkOlder
  split
  · dsimp only
    split
    · exact keyAt_setNode_newer s _ j _
    · exact keyAt_setNode_newer s _ j _
  · rfl

/-- `Lru.prototype.del` only re-links nodes; it never changes a key in the
store. -/
theorem keyAt_lruDelAux (b : Bool) (k : String) (s : LruState) (j : Nat) :
    (getNode (lruDelAux b k s) j).key = (getNode s j).key := by
  unfold lruDelAux
  split
  · rfl
  · dsimp only
    split
    all_goals exact (keyAt_lruUnlinkOlder _ _ j).trans (keyAt_lruUnlinkNewer _ s j)

/-- `_moveToHead` installs the given node as the new head. -/
theorem head_lruMoveToHead (ei : Nat) (s : LruState) :
    (lruMoveToHead ei s).head = some ei := rfl

/-- `_moveToHead` only re-links nodes; it never changes a key in the store. -/
theorem keyAt_lruMoveToHead (ei : Nat) (s : LruState) (j : Nat) :
    (getNode (lruMoveToHead ei s) j).key = (getNode s j).key := by
  unfold lruMoveToHead
  dsimp only
  split
  · rfl
  · split
    · exact ((keyAt_setNode_older _ ei j _).trans
        (keyAt_setNode_newer _ _ j _)).trans (keyAt_lruDelAux true _ s j)
    · exact keyAt_lruDelAux true _ s j

theorem getD_append_length (l : List LruNode) (a d : LruNode) :
    (l ++ [a]).getD l.length d = a := by
  induction l with
  | nil => rfl
  | cons x xs ih => simp [List.getD_cons_succ, ih]

/-- After the insertion part of `Lru.prototype.put` (before the eviction
loop), the head is the freshly inserted node and it carries the inserted
key. -/
theorem headKeyOf_lruPutCore (k : String) (sz : Int) (s : LruState) :
    headKeyOf (lruPutCore k sz s) = some k := by
  have hkey : (getNode (lruMoveToHead s.nodes.length (lruNewNode k sz s))
      s.nodes.length).key = k := by
    rw [keyAt_lruMoveToHead]
    exact congrArg LruNode.key (getD_append_length s.nodes _ _)
  have hhead := head_lruMoveToHead s.nodes.length (lruNewNode k sz s)
  unfold lruPutCore
  dsimp only
  unfold headKeyOf
  split
  · dsimp only
    rw [hhead]
    simp only [Option.map_some']
    exact congrArg some hkey
  · rw [hhead]
    simp only [Option.map_some']
    exact congrArg some hkey

theorem lruEvict_noop (fuel : Nat) (s : LruState)
    (h : sizeGtB s.size s.maxSize = false) : lruEvict (fuel + 1) s = some s := by
  simp [lruEvict, h]

/-- When the insertion does not push the aggregate size over `maxSize`, the
eviction loop of `put` does not run at all. -/
theorem lruPut_of_no_evict (k : String) (sz : Int) (L : LruState)
    (h : sizeGtB (lruPutCore k sz L).size (lruPutCore k sz L).maxSize = false) :
    lruPut k sz L = some (lruPutCore k sz L) := by
  unfold lruPut
  exact lruEvict_noop _ _ h

theorem fetchStart_lru (k : String) (w : Waiter) (s : CrispState α) :
    (fetchStart k w s).lru = s.lru := by
  unfold fetchStart lockOp
  cases h : lookupA s.locks k <;> simp

theorem fetchStart_delivered (k : String) (w : Waiter) (s : CrispState α) :
    (fetchStart k w s).delivered = s.delivered := by
  unfold fetchStart lockOp
  cases h : lookupA s.locks k <;> simp

/-- C10, confirmed.  With a size bound configured (`lru = some L`), a `get`
that hits an entry in the `VALID` or `STALE` state re-inserts the key through
`Lru.prototype.put`: provided the insertion itself does not overflow
`maxSize` (no eviction is triggered), the resulting LRU is exactly
`lruPutCore key e.size L`, whose head node carries the requested key — a read
hit promotes the key to most-recently-used — and the caller is delivered the
cached value. -/
theorem c10_read_promotes (s : CrispState String) (key : String)
    (e : CacheEntryJS String) (L : LruState) (cb : Nat) (now : Int)
    (hhit : lookupA s.cache key = some e)
    (hstate : entryState e now = .VALID ∨ entryState e now = .STALE)
    (hlru : s.lru = some L)
    (hnoev : sizeGtB (lruPutCore key e.size L).size
        (lruPutCore key e.size L).maxSize = false) :
    ∃ s2, getOp now key {} (some cb) s = some s2 ∧
      s2.lru = some (lruPutCore key e.size L) ∧
      headKeyOf (lruPutCore key e.size L) = some key ∧
      (some cb, CbResult.ok e.value) ∈ s2.delivered := by
  have hput := lruPut_of_no_evict key e.size L hnoev
  have hhk := headKeyOf_lruPutCore key e.size L
  rcases hstate with hv | hst
  · refine ⟨deliver (some cb) (.ok e.value)
        { s with lru := some (lruPutCore key e.size L) }, ?_, rfl, hhk,
      by simp [deliver]⟩
    simp [getOp, hhit, hv, hlru, hput]
  · refine ⟨fetchStart key none (deliver (some cb) (.ok e.value)
        { s with lru := some (lruPutCore key e.size L) }), ?_, ?_, hhk, ?_⟩
    · simp [getOp, hhit, hst, hlru, hput]
    · rw [fetchStart_lru]
      rfl
    · rw [fetchStart_delivered]
      simp [deliver]

/-- C10, witness: a valid hit on key `'k'` of the size-bounded cache
`lruCacheInit` promotes `'k'` to the head of its (previously empty) LRU. -/
theorem c10_read_promotes_witness :
    ∃ s2, getOp 0 "k" {} (some 3) lruCacheInit = some s2 ∧
      s2.lru = some (lruPutCore "k" validEntry.size (lruInit (some 10))) ∧
      headKeyOf (lruPutCore "k" validEntry.size (lruInit (some 10))) = some "k" ∧
      (some 3, CbResult.ok validEntry.value) ∈ s2.delivered :=
  c10_read_promotes lruCacheInit "k" validEntry (lruInit (some 10)) 3 0
    (by decide) (Or.inl (by decide)) rfl (by decide)
